import Mathlib

/-!
Verification of the card reward-scoring and spend-mix engine of the
Swipe Coach backend (HackRice25).

The Python source is shallowly embedded over exact rationals (ℚ):

* `server/services/scoring.py` — `score_card`, `score_catalog`
* `server/services/rewards.py` — `normalize_mix`
* `server/services/spend.py` — `_summarize_categories`, `compute_user_mix`,
  `aggregate_spend_details`
* `server/app.py` — the two textual copies of `earn_percent_for_product`
  (bulk catalog path near line 795 and the best-card-for-merchant path near
  line 2466), embedded in the namespaces `CatalogRoute` and `MerchantRoute`.

Modelling conventions:

* Python floats are idealised as rationals; `round(x, 2)` is modelled by
  `round2` (round half to even, the tie rule CPython documents for `round`).
* Python dicts that the code only reads through `.get` are modelled as
  association lists (`List (String × _)`) looked up with `mixGet`; CPython
  dicts preserve insertion order, which the association lists also do.
* `dict.get(k) or d` / `dict.get(k, d)` patterns on optional string fields
  are modelled with `strOr` (both `None` and the empty string are falsy).
* Display-only output (highlight strings, issuer/network/link fields) is
  omitted; every numeric output field that any claim touches is kept.
* `list.sort(key=..., reverse=True)` (CPython Timsort: stable, and with
  `reverse=True` equal keys keep their original order) is modelled by
  `List.mergeSort` with the relation `le a b = decide (key b ≤ key a)`:
  a stable sort that puts `a` before `b` exactly when `key a > key b` or the
  keys are equal and `a` came first.
-/

/-- Round half to even (CPython `round` tie rule) to an integer. -/
def roundHalfEven (x : ℚ) : ℤ :=
  let f := ⌊x⌋
  let frac := x - (f : ℚ)
  if frac < 1/2 then f
  else if 1/2 < frac then f + 1
  else if f % 2 = 0 then f else f + 1

/-- Python `round(x, 2)` idealised over ℚ. -/
def round2 (x : ℚ) : ℚ := (roundHalfEven (x * 100) : ℚ) / 100

/-- Python `s_opt or default` for optional strings: `None` and `""` are falsy. -/
def strOr (v : Option String) (d : String) : String :=
  match v with
  | some s => if s = "" then d else s
  | none => d

/-- Dict lookup `mix.get(category, 0.0)` over an association list. -/
def mixGet (mix : List (String × ℚ)) (c : String) : ℚ :=
  match mix with
  | [] => 0
  | kv :: rest => if kv.1 = c then kv.2 else mixGet rest c

/-- `RewardRule` after `_format_rewards` in `scoring.py`: category and numeric
rate always present, optional monthly cap.  (A raw rule whose rate is missing
is dropped by `_format_rewards`; in `app.py`'s `earn_percent_for_product` a
missing/zero rate falls back to the base rate, which modelling "missing" as
rate `0` reproduces, see the falsy test there.) -/
structure RewardRule where
  category : String
  rate : ℚ
  cap_monthly : Option ℚ
  deriving Repr, DecidableEq

/-- `welcome_offer` after `_format_welcome_offer`: each field survives only if
present and coercible, hence `Option`. -/
structure WelcomeOffer where
  bonus_value_usd : Option ℚ
  min_spend : Option ℚ
  window_days : Option ℤ
  deriving Repr, DecidableEq

/-- A card product document, restricted to the fields the scoring code reads.
`base_cashback` and `annual_fee` are read as `float(card.get(k) or 0.0)`, so a
missing field is the same as `0`. -/
structure Card where
  slug : Option String
  base_cashback : ℚ
  rewards : List RewardRule
  annual_fee : ℚ
  welcome_offer : Option WelcomeOffer
  deriving Repr, DecidableEq

/-- One row of `bonus_details` built inside `score_card`. -/
structure BonusDetail where
  category : String
  rate : ℚ
  cap_monthly : Option ℚ
  eligible_spend_monthly : ℚ
  monthly_amount : ℚ
  annual_amount : ℚ
  deriving Repr, DecidableEq

/-- The numeric part of the dict returned by `score_card`. -/
structure ScoredCard where
  slug : Option String
  base_cashback : ℚ
  annual_fee : ℚ
  annual_reward : ℚ
  monthly_reward : ℚ
  net : ℚ
  rewards : List RewardRule
  base_monthly_amount : ℚ
  bonuses : List BonusDetail
  welcome_value : ℚ
  deriving Repr, DecidableEq

/-- `eligible_spend = min(category_spend, cap) if isinstance(cap, (int, float))
else category_spend` for one reward rule (`scoring.py` lines 66–69). -/
def ruleEligibleSpend (mix : List (String × ℚ)) (monthly_total : ℚ)
    (r : RewardRule) : ℚ :=
  let category_spend := monthly_total * mixGet mix r.category
  match r.cap_monthly with
  | some cap => min category_spend cap
  | none => category_spend

/-- `bonus_amount = max(rate - base_rate, 0.0) * eligible_spend`
(`scoring.py` lines 65–70). -/
def ruleBonusAmount (base_rate : ℚ) (mix : List (String × ℚ))
    (monthly_total : ℚ) (r : RewardRule) : ℚ :=
  max (r.rate - base_rate) 0 * ruleEligibleSpend mix monthly_total r

/-- The breakdown row appended for one reward rule (`scoring.py` lines 72–81). -/
def ruleBonusDetail (base_rate : ℚ) (mix : List (String × ℚ))
    (monthly_total : ℚ) (r : RewardRule) : BonusDetail :=
  { category := r.category
    rate := r.rate
    cap_monthly := r.cap_monthly
    eligible_spend_monthly := round2 (ruleEligibleSpend mix monthly_total r)
    monthly_amount := round2 (ruleBonusAmount base_rate mix monthly_total r)
    annual_amount := round2 (ruleBonusAmount base_rate mix monthly_total r * 12) }

/-- `bonus_total_monthly` accumulated over the card's reward list. -/
def bonusTotalMonthly (card : Card) (mix : List (String × ℚ))
    (monthly_total : ℚ) : ℚ :=
  (card.rewards.map (ruleBonusAmount card.base_cashback mix monthly_total)).sum

/-- `monthly_reward = base_reward_monthly + bonus_total_monthly` before the
final `round(., 2)` (`scoring.py` line 83). -/
def monthlyRewardRaw (card : Card) (mix : List (String × ℚ))
    (monthly_total : ℚ) : ℚ :=
  card.base_cashback * monthly_total + bonusTotalMonthly card mix monthly_total

/-- `offer_window = int(welcome_offer.get("window_days") or window_days or 0)`:
first truthy (non-`None`, nonzero) of the offer's window, the call argument,
and `0`. -/
def resolveOfferWindow (o : WelcomeOffer) (window_days : ℤ) : ℤ :=
  match o.window_days with
  | some w => if w ≠ 0 then w else if window_days ≠ 0 then window_days else 0
  | none => if window_days ≠ 0 then window_days else 0

/-- `welcome_value` computed by `score_card` (`scoring.py` lines 86–99): `0`
when the card has no (formatted) offer, prorated
`bonus_value * min(spend_available / min_spend, 1.0)` when every gating signal
is positive, the full `bonus_value` otherwise. -/
def welcomeValue (card : Card) (monthly_total : ℚ) (window_days : ℤ) : ℚ :=
  match card.welcome_offer with
  | none => 0
  | some o =>
    let bonus_value := o.bonus_value_usd.getD 0
    let min_spend := o.min_spend.getD 0
    let offer_window := resolveOfferWindow o window_days
    if 0 < bonus_value then
      if 0 < min_spend ∧ 0 < monthly_total ∧ 0 < offer_window then
        let spend_available := monthly_total * ((offer_window : ℚ) / 30)
        bonus_value * min (spend_available / min_spend) 1
      else bonus_value
    else 0

/-- `annual_reward = monthly_reward * 12` plus the welcome value, before
rounding (`scoring.py` lines 84 and 99). -/
def annualRewardRaw (card : Card) (mix : List (String × ℚ))
    (monthly_total : ℚ) (window_days : ℤ) : ℚ :=
  monthlyRewardRaw card mix monthly_total * 12
    + welcomeValue card monthly_total window_days

/-- `net_value = annual_reward - annual_fee` before rounding. -/
def netValueRaw (card : Card) (mix : List (String × ℚ))
    (monthly_total : ℚ) (window_days : ℤ) : ℚ :=
  annualRewardRaw card mix monthly_total window_days - card.annual_fee

/-- `score_card` (`scoring.py` lines 50–158), restricted to its numeric
output fields; the rounded values are exactly the ones placed in the returned
dict. -/
def score_card (card : Card) (mix : List (String × ℚ))
    (monthly_total : ℚ) (window_days : ℤ) : ScoredCard :=
  { slug := card.slug
    base_cashback := card.base_cashback
    annual_fee := card.annual_fee
    annual_reward := round2 (annualRewardRaw card mix monthly_total window_days)
    monthly_reward := round2 (monthlyRewardRaw card mix monthly_total)
    net := round2 (netValueRaw card mix monthly_total window_days)
    rewards := card.rewards
    base_monthly_amount := round2 (card.base_cashback * monthly_total)
    bonuses := card.rewards.map (ruleBonusDetail card.base_cashback mix monthly_total)
    welcome_value := round2 (welcomeValue card monthly_total window_days) }

/-- The comparison Python's `scored.sort(key=lambda item: item["net"],
reverse=True)` realises: `a` may stay before `b` iff `b.net ≤ a.net`. -/
def netDescLe (a b : ScoredCard) : Bool := decide (b.net ≤ a.net)

/-- `score_catalog` (`scoring.py` lines 161–175): short-circuit on no signal,
score every card, stable-sort descending by `net`, truncate to `limit` when
positive. -/
def score_catalog (cards : List Card) (category_mix : List (String × ℚ))
    (monthly_total : ℚ) (window_days : ℤ) (limit : ℤ) : List ScoredCard :=
  if monthly_total ≤ 0 ∨ category_mix = [] then []
  else
    let scored := cards.map (fun card => score_card card category_mix monthly_total window_days)
    let ranked := scored.mergeSort netDescLe
    if 0 < limit then ranked.take limit.toNat else ranked

/-! ## `server/services/rewards.py` — the Mix Normalizer -/

/-- The sanitisation loop of `normalize_mix` (`rewards.py` lines 101–109):
keep entries whose value is numeric (`some`) and strictly positive.  Raw dict
values that fail `float(...)` are modelled as `none`. -/
def sanitizeMix (raw_mix : List (String × Option ℚ)) : List (String × ℚ) :=
  raw_mix.filterMap (fun kv =>
    match kv.2 with
    | some amount => if 0 < amount then some (kv.1, amount) else none
    | none => none)

/-- `normalize_mix` (`rewards.py` lines 100–116). -/
def normalize_mix (raw_mix : List (String × Option ℚ)) :
    List (String × ℚ) × ℚ :=
  let sanitized := sanitizeMix raw_mix
  let total := (sanitized.map (fun kv => kv.2)).sum
  if total ≤ 0 then ([], 0)
  else (sanitized.map (fun kv => (kv.1, kv.2 / total)), total)

/-! ## `server/services/spend.py` — Spend Aggregator and user mix -/

/-- A transaction document, restricted to the fields the aggregation code
reads.  `amount` is `none` when the key is missing or `None`
(`float(txn.get("amount", 0) or 0)` makes both behave like `0`). -/
structure Txn where
  amount : Option ℚ
  category : Option String
  merchant_id : Option String
  description_clean : Option String
  description : Option String
  logoUrl : Option String
  deriving Repr, DecidableEq

/-- `by_category[category] = by_category.get(category, 0.0) + amount` on an
insertion-ordered dict: update in place when the key exists, append
otherwise. -/
def addAmount (m : List (String × ℚ)) (k : String) (v : ℚ) :
    List (String × ℚ) :=
  match m with
  | [] => [(k, v)]
  | kv :: rest => if kv.1 = k then (kv.1, kv.2 + v) :: rest else kv :: addAmount rest k v

/-- `counts[category] = counts.get(category, 0) + 1` on an insertion-ordered
dict. -/
def addCount (m : List (String × Nat)) (k : String) : List (String × Nat) :=
  match m with
  | [] => [(k, 1)]
  | kv :: rest => if kv.1 = k then (kv.1, kv.2 + 1) :: rest else kv :: addCount rest k

/-- `counts.get(category, 0)`. -/
def countsGet (m : List (String × Nat)) (c : String) : Nat :=
  match m with
  | [] => 0
  | kv :: rest => if kv.1 = c then kv.2 else countsGet rest c

/-- The clamped amount `max(float(txn.get("amount", 0) or 0), 0.0)` used by
both aggregation loops in `spend.py`. -/
def txnAmount (txn : Txn) : ℚ := max (txn.amount.getD 0) 0

/-- The body of the `_summarize_categories` loop for one transaction. -/
def summarizeStep (acc : ℚ × List (String × ℚ) × List (String × Nat))
    (txn : Txn) : ℚ × List (String × ℚ) × List (String × Nat) :=
  let amount := txnAmount txn
  let category := strOr txn.category "Uncategorized"
  (acc.1 + amount, addAmount acc.2.1 category amount, addCount acc.2.2 category)

/-- `_summarize_categories` (`spend.py` lines 95–106): running
`(total, by_category, counts)` over the transactions in order, clamping each
amount at `max(raw_amount, 0)` and defaulting the category to
`"Uncategorized"`. -/
def summarizeCategories (txns : List Txn) :
    ℚ × List (String × ℚ) × List (String × Nat) :=
  txns.foldl summarizeStep (0, [], [])

/-- The pure part of `compute_user_mix` (`spend.py` lines 109–126), after the
transactions have been loaded: summarize, short-circuit on nonpositive total,
otherwise keep the strictly positive categories divided by the total.  (The
Mongo-loading wrapper and the pass-through of the transaction list are
outside the computational core.) -/
def compute_user_mix (txns : List Txn) : List (String × ℚ) × ℚ :=
  let s := summarizeCategories txns
  if s.1 ≤ 0 then ([], 0)
  else
    ((s.2.1.filter (fun kv => decide (0 < kv.2))).map (fun kv => (kv.1, kv.2 / s.1)),
      s.1)

/-- A compiled merchant-category rule from `build_category_rules`: the
compiled regex (`matcher.search(name)`) or lowercase-substring test
(`matcher in name.lower()`) is abstracted as a Boolean predicate on the
merchant name, paired with the category it assigns. -/
structure CatRule where
  matchesName : String → Bool
  category : String

/-- `_resolve_category` (`spend.py` lines 145–156): first matching rule wins,
otherwise the fallback; `None` or an empty rule list leaves the fallback. -/
def resolveCategory (name fallback : String) (rules : Option (List CatRule)) :
    String :=
  match rules with
  | none => fallback
  | some rs =>
    match rs.find? (fun r => r.matchesName name) with
    | some r => r.category
    | none => fallback

/-- One row of the merchant breakdown built by `aggregate_spend_details`. -/
structure MerchantRow where
  name : String
  category : String
  count : Nat
  amount : ℚ
  logoUrl : String
  deriving Repr, DecidableEq

/-- One row of the category breakdown built by `aggregate_spend_details`. -/
structure CategoryRow where
  key : String
  amount : ℚ
  count : Nat
  pct : ℚ
  deriving Repr, DecidableEq

/-- The dict returned by `aggregate_spend_details`. -/
structure SpendDetails where
  total : ℚ
  transaction_count : Nat
  categories : List CategoryRow
  merchants : List MerchantRow
  deriving Repr, DecidableEq

/-- Merchant display-name precedence (`spend.py` lines 183–188):
`merchant_id or description_clean or description or "Merchant"`. -/
def merchantName (txn : Txn) : String :=
  strOr txn.merchant_id (strOr txn.description_clean (strOr txn.description "Merchant"))

/-- The per-transaction mutation of a merchant row (`spend.py` lines
200–203): bump count and amount, and adopt the transaction's logo when the
row has none and the transaction has a truthy one. -/
def updateMerchantRow (row : MerchantRow) (amount : ℚ) (logo : Option String) :
    MerchantRow :=
  let row2 := { row with count := row.count + 1, amount := row.amount + amount }
  if row2.logoUrl = "" ∧ strOr logo "" ≠ "" then { row2 with logoUrl := strOr logo "" }
  else row2

/-- `merchants.setdefault(name, {...})` followed by the row mutation, on an
insertion-ordered dict keyed by name. -/
def upsertMerchant (ms : List MerchantRow) (name category : String)
    (amount : ℚ) (logo : Option String) : List MerchantRow :=
  match ms with
  | [] =>
    [updateMerchantRow
      { name := name, category := category, count := 0, amount := 0,
        logoUrl := logo.getD "" } amount logo]
  | r :: rest =>
    if r.name = name then updateMerchantRow r amount logo :: rest
    else r :: upsertMerchant rest name category amount logo

/-- The merchant-accumulation loop of `aggregate_spend_details` (`spend.py`
lines 177–203): transactions with clamped amount `≤ 0` are skipped. -/
def merchantFold (txns : List Txn) : List MerchantRow :=
  txns.foldl
    (fun ms txn =>
      let amount := txnAmount txn
      if amount ≤ 0 then ms
      else upsertMerchant ms (merchantName txn) (strOr txn.category "General") amount
        txn.logoUrl)
    []

/-- `aggregate_spend_details` (`spend.py` lines 159–216). -/
def aggregate_spend_details (txns : List Txn)
    (category_rules : Option (List CatRule)) : SpendDetails :=
  let s := summarizeCategories txns
  let total := s.1
  let categories :=
    (s.2.1.mergeSort (fun a b => decide (b.2 ≤ a.2))).map
      (fun kv =>
        { key := kv.1, amount := round2 kv.2, count := countsGet s.2.2 kv.1,
          pct := if total = 0 then 0 else kv.2 / total })
  let resolved :=
    (merchantFold txns).map
      (fun m =>
        { m with
          category := resolveCategory m.name m.category category_rules,
          amount := round2 m.amount })
  { total := round2 total
    transaction_count := txns.length
    categories := categories
    merchants := resolved.mergeSort (fun a b => decide (b.amount ≤ a.amount)) }

/-! ## `server/app.py` — the two copies of `earn_percent_for_product`

The bulk catalog path (around line 795) and the best-card-for-merchant path
(around line 2466) each define a local `earn_percent_for_product`; they are
embedded separately, one per namespace, so their extensional agreement can be
stated. -/

namespace CatalogRoute

/-- `earn_percent_for_product` as defined in the catalog path of `app.py`
(lines 795–814).  `rate = float(rule.get("rate", base) or base)` makes a
missing or zero rate fall back to `base` (a missing rate is modelled as `0`,
which lands in the same branch); `if not cap` catches both a missing and a
zero cap. -/
def earn_percent_for_product (product : Card) (category : String)
    (monthly_spend : ℚ) : ℚ :=
  let base := product.base_cashback
  match product.rewards.find? (fun r => decide (r.category = category)) with
  | none => base
  | some rule =>
    let rate := if rule.rate = 0 then base else rule.rate
    match rule.cap_monthly with
    | none => rate
    | some cap_val =>
      if cap_val = 0 then rate
      else if monthly_spend ≤ 0 then rate
      else if monthly_spend ≤ cap_val then rate
      else (cap_val * rate + (monthly_spend - cap_val) * base) / monthly_spend

end CatalogRoute

namespace MerchantRoute

/-- `earn_percent_for_product` as redefined in the best-card-for-merchant
path of `app.py` (lines 2466–2485); the source body is a verbatim copy of the
catalog one up to the local variable name `spend_amt`. -/
def earn_percent_for_product (product : Card) (category : String)
    (monthly_spend : ℚ) : ℚ :=
  let base := product.base_cashback
  match product.rewards.find? (fun r => decide (r.category = category)) with
  | none => base
  | some rule =>
    let rate := if rule.rate = 0 then base else rule.rate
    match rule.cap_monthly with
    | none => rate
    | some cap_val =>
      if cap_val = 0 then rate
      else if monthly_spend ≤ 0 then rate
      else if monthly_spend ≤ cap_val then rate
      else (cap_val * rate + (monthly_spend - cap_val) * base) / monthly_spend

end MerchantRoute

/-! ## Support lemmas -/

/-- Sum of the second components of an association list. -/
def sndSum (m : List (String × ℚ)) : ℚ := (m.map (fun kv => kv.2)).sum

theorem sndSum_nil : sndSum [] = 0 := rfl

theorem sndSum_cons (kv : String × ℚ) (m : List (String × ℚ)) :
    sndSum (kv :: m) = kv.2 + sndSum m := by simp [sndSum]

theorem roundHalfEven_intCast (n : ℤ) : roundHalfEven (n : ℚ) = n := by
  norm_num [roundHalfEven]

/-- `round2` is the identity on whole-cent amounts. -/
theorem round2_of_mul_cast (x : ℚ) (n : ℤ) (h : x * 100 = (n : ℚ)) :
    round2 x = x := by
  have hn : roundHalfEven (x * 100) = n := by rw [h]; exact roundHalfEven_intCast n
  rw [round2, hn]
  linarith

theorem round2_zero : round2 0 = 0 := by
  have := round2_of_mul_cast 0 0 (by norm_num)
  simpa using this

theorem txnAmount_nonneg (t : Txn) : 0 ≤ txnAmount t := le_max_right _ _

theorem foldl_summarize_fst (txns : List Txn) :
    ∀ acc : ℚ × List (String × ℚ) × List (String × Nat),
      (txns.foldl summarizeStep acc).1 = acc.1 + (txns.map txnAmount).sum := by
  induction txns with
  | nil => intro acc; simp
  | cons t ts ih =>
    intro acc
    rw [List.foldl_cons, ih]
    simp [summarizeStep]
    ring

/-- The running total of `_summarize_categories` is the sum of the clamped
amounts. -/
theorem summarize_total (txns : List Txn) :
    (summarizeCategories txns).1 = (txns.map txnAmount).sum := by
  rw [summarizeCategories, foldl_summarize_fst]
  simp

theorem sndSum_addAmount (m : List (String × ℚ)) (k : String) (v : ℚ) :
    sndSum (addAmount m k v) = sndSum m + v := by
  induction m with
  | nil => simp [addAmount, sndSum]
  | cons kv rest ih =>
    rw [addAmount]
    by_cases h : kv.1 = k
    · rw [if_pos h, sndSum_cons, sndSum_cons]; ring
    · rw [if_neg h, sndSum_cons, sndSum_cons, ih]; ring

theorem addAmount_nonneg {m : List (String × ℚ)} {k : String} {v : ℚ}
    (hm : ∀ kv ∈ m, 0 ≤ kv.2) (hv : 0 ≤ v) :
    ∀ kv ∈ addAmount m k v, 0 ≤ kv.2 := by
  induction m with
  | nil =>
    intro kv hkv
    simp [addAmount] at hkv
    simp [hkv, hv]
  | cons kv0 rest ih =>
    intro kv hkv
    rw [addAmount] at hkv
    by_cases h : kv0.1 = k
    · rw [if_pos h] at hkv
      rcases List.mem_cons.mp hkv with h1 | h1
      · have h0 := hm kv0 (List.mem_cons_self _ _)
        simp [h1]
        exact add_nonneg h0 hv
      · exact hm kv (List.mem_cons_of_mem _ h1)
    · rw [if_neg h] at hkv
      rcases List.mem_cons.mp hkv with h1 | h1
      · exact h1 ▸ hm kv0 (List.mem_cons_self _ _)
      · exact ih (fun x hx => hm x (List.mem_cons_of_mem _ hx)) kv h1

theorem summarize_invariant (txns : List Txn) :
    ∀ acc : ℚ × List (String × ℚ) × List (String × Nat),
      acc.1 = sndSum acc.2.1 → (∀ kv ∈ acc.2.1, 0 ≤ kv.2) →
      (txns.foldl summarizeStep acc).1 = sndSum (txns.foldl summarizeStep acc).2.1 ∧
        ∀ kv ∈ (txns.foldl summarizeStep acc).2.1, 0 ≤ kv.2 := by
  induction txns with
  | nil => intro acc h1 h2; exact ⟨h1, h2⟩
  | cons t ts ih =>
    intro acc h1 h2
    rw [List.foldl_cons]
    apply ih
    · show acc.1 + txnAmount t = sndSum (addAmount acc.2.1 (strOr t.category "Uncategorized") (txnAmount t))
      rw [sndSum_addAmount, h1]
    · exact addAmount_nonneg h2 (txnAmount_nonneg t)

/-- The by-category amounts of `_summarize_categories` are nonnegative and
sum to the running total. -/
theorem summarize_byCategory (txns : List Txn) :
    (summarizeCategories txns).1 = sndSum (summarizeCategories txns).2.1 ∧
      ∀ kv ∈ (summarizeCategories txns).2.1, 0 ≤ kv.2 :=
  summarize_invariant txns (0, [], []) (by simp [sndSum]) (by intro kv hkv; simp at hkv)

theorem sndSum_filter_pos (m : List (String × ℚ)) (hm : ∀ kv ∈ m, 0 ≤ kv.2) :
    sndSum (m.filter (fun kv => decide (0 < kv.2))) = sndSum m := by
  induction m with
  | nil => rfl
  | cons kv rest ih =>
    have hrest : ∀ x ∈ rest, 0 ≤ x.2 := fun x hx => hm x (List.mem_cons_of_mem _ hx)
    by_cases h : 0 < kv.2
    · rw [List.filter_cons_of_pos (by simpa using h), sndSum_cons, sndSum_cons, ih hrest]
    · have h0 : kv.2 = 0 :=
        le_antisymm (not_lt.mp h) (hm kv (List.mem_cons_self _ _))
      rw [List.filter_cons_of_neg (by simpa using h), sndSum_cons, h0, ih hrest]
      ring

theorem sndSum_map_div (m : List (String × ℚ)) (t : ℚ) :
    sndSum (m.map (fun kv => (kv.1, kv.2 / t))) = sndSum m / t := by
  induction m with
  | nil => simp [sndSum]
  | cons kv rest ih =>
    rw [List.map_cons, sndSum_cons, sndSum_cons, ih, add_div]

theorem mixGet_nonneg {mix : List (String × ℚ)}
    (h : ∀ kv ∈ mix, 0 ≤ kv.2) (c : String) : 0 ≤ mixGet mix c := by
  induction mix with
  | nil => exact le_refl 0
  | cons kv rest ih =>
    rw [mixGet]
    by_cases hc : kv.1 = c
    · rw [if_pos hc]; exact h kv (List.mem_cons_self _ _)
    · rw [if_neg hc]
      exact ih fun x hx => h x (List.mem_cons_of_mem _ hx)

/-! ## Claims -/

/-- C3: the blended capped-rate formula is applied identically in both code
paths that report a single category's earn rate — the catalog copy and the
best-card-for-merchant copy of `earn_percent_for_product` in `app.py` are
extensionally equal (their source bodies are verbatim copies up to a local
variable name, and so are their embeddings). -/
theorem earn_percent_copies_agree (product : Card) (category : String)
    (monthly_spend : ℚ) :
    CatalogRoute.earn_percent_for_product product category monthly_spend =
      MerchantRoute.earn_percent_for_product product category monthly_spend := rfl

/-- The worked example card of the spec's net-value test: `base_cashback=0.01`,
one rule `Dining 3% capped at $200/mo`, `annual_fee=95`, no welcome offer. -/
def diningCard : Card :=
  { slug := some "dining-card"
    base_cashback := 1/100
    rewards := [{ category := "Dining", rate := 3/100, cap_monthly := some 200 }]
    annual_fee := 95
    welcome_offer := none }

/-- The mix `{"Dining": 0.3, "Other": 0.7}` of the worked example. -/
def diningMix : List (String × ℚ) := [("Dining", 3/10), ("Other", 7/10)]

/-- C2: the worked net-value example.  For `diningCard` scored against
`diningMix` with `monthly_total=1000`: Dining spend is 300, the capped
eligible spend is 200, the bonus is `(0.03-0.01)*200 = 4.0`, the base reward
is 10.0/mo, `monthly_reward = 14.0`, `annual_reward = 168.0` and
`net = 73.0`. -/
theorem net_value_example :
    1000 * mixGet diningMix "Dining" = 300 ∧
    (score_card diningCard diningMix 1000 30).bonuses =
      [{ category := "Dining", rate := 3/100, cap_monthly := some 200,
         eligible_spend_monthly := 200, monthly_amount := 4, annual_amount := 48 }] ∧
    (score_card diningCard diningMix 1000 30).base_monthly_amount = 10 ∧
    (score_card diningCard diningMix 1000 30).monthly_reward = 14 ∧
    (score_card diningCard diningMix 1000 30).annual_reward = 168 ∧
    (score_card diningCard diningMix 1000 30).net = 73 := by
  norm_num [score_card, netValueRaw, annualRewardRaw, monthlyRewardRaw,
    bonusTotalMonthly, ruleBonusAmount, ruleBonusDetail, ruleEligibleSpend,
    welcomeValue, mixGet, round2, roundHalfEven, diningCard, diningMix]

/-- The card used for the concrete cap-blending check: base 1%, one rule
`X 5% capped at $100/mo`. -/
def capCard : Card :=
  { slug := some "cap-card"
    base_cashback := 1/100
    rewards := [{ category := "X", rate := 5/100, cap_monthly := some 100 }]
    annual_fee := 0
    welcome_offer := none }

/-- C1: cap blending.  (a) In `score_card`, a capped rule grants the bonus
rate only on `min(category_spend, cap)`: together with the base reward on the
category's spend, the category earns `cap*rate + (spend-cap)*base` when spend
reaches the cap — the overflow earns base rate.  (b) With `rate=0.05`,
`cap_monthly=100`, `base_rate=0.01` and `category_spend=150` the bonus amount
is `0.04*100 = 4.0`.  (c) `earn_percent_for_product` reports the effective
category rate `(cap*rule.rate + (spend-cap)*base_rate)/spend` whenever spend
exceeds a positive cap.  (d) At the concrete inputs that rate is
`(100*0.05 + 50*0.01)/150 = 11/300 ≈ 0.0367`. -/
theorem cap_blending :
    (∀ (base : ℚ) (mix : List (String × ℚ)) (total : ℚ) (r : RewardRule) (c : ℚ),
      r.cap_monthly = some c → 0 ≤ c → base ≤ r.rate →
      c ≤ total * mixGet mix r.category →
      base * (total * mixGet mix r.category) + ruleBonusAmount base mix total r =
        c * r.rate + (total * mixGet mix r.category - c) * base) ∧
    ruleBonusAmount (1/100) [("X", 1)] 150
        { category := "X", rate := 5/100, cap_monthly := some 100 } = 4 ∧
    (∀ (p : Card) (cat : String) (s : ℚ) (rule : RewardRule) (c : ℚ),
      p.rewards.find? (fun r => decide (r.category = cat)) = some rule →
      rule.rate ≠ 0 → rule.cap_monthly = some c → 0 < c → c < s →
      CatalogRoute.earn_percent_for_product p cat s =
        (c * rule.rate + (s - c) * p.base_cashback) / s) ∧
    CatalogRoute.earn_percent_for_product capCard "X" 150 = 11/300 := by
  refine ⟨?_, ?_, ?_, ?_⟩
  · intro base mix total r c hcap hc hrate hspend
    simp only [ruleBonusAmount, ruleEligibleSpend, hcap]
    rw [min_eq_right hspend, max_eq_left (sub_nonneg.mpr hrate)]
    ring
  · norm_num [ruleBonusAmount, ruleEligibleSpend, mixGet]
  · intro p cat s rule c hfind hrate hcap hc hcs
    simp only [CatalogRoute.earn_percent_for_product, hfind, hcap, if_neg hrate,
      if_neg (ne_of_gt hc), if_neg (not_le.mpr (lt_trans hc hcs)),
      if_neg (not_le.mpr hcs)]
  · norm_num [CatalogRoute.earn_percent_for_product, capCard, List.find?]

/-- Witness for C1: both general parts applied at the spec's concrete
numbers. -/
theorem cap_blending_witness :
    ((1/100 : ℚ) * (150 * mixGet [("X", 1)] "X") +
        ruleBonusAmount (1/100) [("X", 1)] 150
          { category := "X", rate := 5/100, cap_monthly := some 100 } =
      100 * (5/100) + (150 * mixGet [("X", 1)] "X" - 100) * (1/100)) ∧
    CatalogRoute.earn_percent_for_product capCard "X" 150 =
      (100 * (5/100) + (150 - 100) * (1/100)) / 150 :=
  ⟨cap_blending.1 (1/100) [("X", 1)] 150
      { category := "X", rate := 5/100, cap_monthly := some 100 } 100 rfl
      (by norm_num) (by norm_num) (by norm_num [mixGet]),
    cap_blending.2.2.1 capCard "X" 150
      { category := "X", rate := 5/100, cap_monthly := some 100 } 100
      (by norm_num [capCard, List.find?]) (by norm_num) rfl (by norm_num)
      (by norm_num)⟩

/-- C5: the Catalog Ranker returns the empty list whenever the mix is empty
or `monthly_total ≤ 0`, for every card list, window and limit; in particular
`rank([], {}, 0, 30, 5) = []` and `rank(cards, {}, 500, 30, 5) = []`. -/
theorem empty_signal_short_circuit (cards : List Card)
    (mix : List (String × ℚ)) (monthly_total : ℚ) (window_days limit : ℤ)
    (h : mix = [] ∨ monthly_total ≤ 0) :
    score_catalog cards mix monthly_total window_days limit = [] ∧
    score_catalog [] [] 0 30 5 = [] ∧
    score_catalog cards [] 500 30 5 = [] := by
  refine ⟨?_, ?_, ?_⟩
  · rw [score_catalog]
    rcases h with h | h
    · rw [if_pos (Or.inr h)]
    · rw [if_pos (Or.inl h)]
  · rw [score_catalog, if_pos (Or.inl le_rfl)]
  · rw [score_catalog, if_pos (Or.inr rfl)]

/-- Witness for C5: an empty mix blocks ranking even with a nonempty catalog
and `monthly_total = 0` on a nonempty mix. -/
theorem empty_signal_short_circuit_witness :
    score_catalog [diningCard] [("Dining", 1)] 0 30 5 = [] ∧
    score_catalog [] [] 0 30 5 = [] ∧
    score_catalog [diningCard] [] 500 30 5 = [] :=
  empty_signal_short_circuit [diningCard] [("Dining", 1)] 0 30 5 (Or.inr le_rfl)

/-- A card whose only economics is a welcome offer: `bonus_value_usd=200`,
`min_spend=3000`, `window_days=90`, no rewards, no fee. -/
def welcomeCard : Card :=
  { slug := some "welcome-card"
    base_cashback := 1/100
    rewards := []
    annual_fee := 0
    welcome_offer := some
      { bonus_value_usd := some 200, min_spend := some 3000, window_days := some 90 } }

/-- Counterexample to C4 as stated: at `monthly_total = 0` a card with a
welcome offer does NOT yield all-zero rewards — the gating condition
`min_spend > 0 and monthly_total > 0 and offer_window > 0` fails, so the full
$200 bonus is credited and `annual_reward = 200 ≠ 0`. -/
theorem zero_total_welcome_not_all_zero :
    (score_card welcomeCard [("Dining", 1)] 0 30).monthly_reward = 0 ∧
    (score_card welcomeCard [("Dining", 1)] 0 30).annual_reward = 200 ∧
    (score_card welcomeCard [("Dining", 1)] 0 30).annual_reward ≠ 0 := by
  norm_num [score_card, annualRewardRaw, monthlyRewardRaw, bonusTotalMonthly,
    welcomeValue, resolveOfferWindow, welcomeCard, round2, roundHalfEven]

/-- C4 (amended): with nonnegative caps (the data-model invariant on
`cap_monthly`), `score_card` at `monthly_total = 0` yields
`monthly_reward = 0` for every card and every mix; `annual_reward` equals the
(rounded) welcome value — which is `0` for every card without a welcome
offer, while a card with a welcome offer still credits it at zero spend — and
a card lacking a rewards list degenerates to base-rate-only scoring.  (Being
a total function, the embedding raises nothing.) -/
theorem score_card_zero_total (card : Card) (mix : List (String × ℚ)) (w : ℤ)
    (hcap : ∀ r ∈ card.rewards, 0 ≤ r.cap_monthly.getD 0) :
    (score_card card mix 0 w).monthly_reward = 0 ∧
    (score_card card mix 0 w).annual_reward = round2 (welcomeValue card 0 w) ∧
    (card.welcome_offer = none → (score_card card mix 0 w).annual_reward = 0) ∧
    ∀ total : ℚ, card.rewards = [] →
      (score_card card mix total w).monthly_reward =
        round2 (card.base_cashback * total) := by
  have hbonus : ∀ r ∈ card.rewards, ruleBonusAmount card.base_cashback mix 0 r = 0 := by
    intro r hr
    cases hcm : r.cap_monthly with
    | none => simp [ruleBonusAmount, ruleEligibleSpend, hcm]
    | some c =>
      have hc : 0 ≤ c := by simpa [hcm] using hcap r hr
      simp [ruleBonusAmount, ruleEligibleSpend, hcm, min_eq_left hc]
  have hmrr : monthlyRewardRaw card mix 0 = 0 := by
    rw [monthlyRewardRaw, bonusTotalMonthly, List.sum_eq_zero]
    · ring
    · intro x hx
      obtain ⟨r, hr, rfl⟩ := List.mem_map.mp hx
      exact hbonus r hr
  refine ⟨?_, ?_, ?_, ?_⟩
  · show round2 (monthlyRewardRaw card mix 0) = 0
    rw [hmrr, round2_zero]
  · show round2 (annualRewardRaw card mix 0 w) = round2 (welcomeValue card 0 w)
    rw [annualRewardRaw, hmrr]
    norm_num
  · intro hwo
    show round2 (annualRewardRaw card mix 0 w) = 0
    simp [annualRewardRaw, hmrr, welcomeValue, hwo, round2_zero]
  · intro total hrew
    show round2 (monthlyRewardRaw card mix total) = round2 (card.base_cashback * total)
    rw [monthlyRewardRaw, bonusTotalMonthly, hrew]
    simp

/-- Witness for C4's amended theorem at the welcome-offer card. -/
theorem score_card_zero_total_witness :
    (score_card welcomeCard [("Dining", 1)] 0 30).monthly_reward = 0 ∧
    (score_card welcomeCard [("Dining", 1)] 0 30).annual_reward =
      round2 (welcomeValue welcomeCard 0 30) ∧
    (welcomeCard.welcome_offer = none →
      (score_card welcomeCard [("Dining", 1)] 0 30).annual_reward = 0) ∧
    (∀ total : ℚ, welcomeCard.rewards = [] →
      (score_card welcomeCard [("Dining", 1)] total 30).monthly_reward =
        round2 (welcomeCard.base_cashback * total)) :=
  score_card_zero_total welcomeCard [("Dining", 1)] 30 (by simp [welcomeCard])

/-- C8: welcome-offer valuation.  With a nonnegative `bonus_value_usd` (the
data-model invariant): when the bonus, `min_spend`, `monthly_total` and the
resolved offer window are all positive, the credited value is
`bonus_value_usd * min(monthly_total * (window/30) / min_spend, 1)` and never
exceeds `bonus_value_usd`; otherwise the full `bonus_value_usd` is credited;
the value is added once into the annual reward (the monthly reward does not
contain it); and at `bonus=200, min_spend=3000, window=90, monthly_total=2000`
the full $200 is credited. -/
theorem welcome_offer_valuation (card : Card) (mix : List (String × ℚ))
    (total : ℚ) (w : ℤ) (o : WelcomeOffer)
    (ho : card.welcome_offer = some o)
    (hb : 0 ≤ o.bonus_value_usd.getD 0) :
    ((0 < o.bonus_value_usd.getD 0 ∧ 0 < o.min_spend.getD 0 ∧ 0 < total ∧
        0 < resolveOfferWindow o w) →
      welcomeValue card total w =
        o.bonus_value_usd.getD 0 *
          min (total * ((resolveOfferWindow o w : ℚ) / 30) / o.min_spend.getD 0) 1 ∧
      welcomeValue card total w ≤ o.bonus_value_usd.getD 0) ∧
    (¬(0 < o.min_spend.getD 0 ∧ 0 < total ∧ 0 < resolveOfferWindow o w) →
      welcomeValue card total w = o.bonus_value_usd.getD 0) ∧
    annualRewardRaw card mix total w =
      monthlyRewardRaw card mix total * 12 + welcomeValue card total w ∧
    welcomeValue welcomeCard 2000 30 = 200 := by
  refine ⟨?_, ?_, rfl, ?_⟩
  · rintro ⟨hbpos, hgate⟩
    have heq : welcomeValue card total w =
        o.bonus_value_usd.getD 0 *
          min (total * ((resolveOfferWindow o w : ℚ) / 30) / o.min_spend.getD 0) 1 := by
      simp only [welcomeValue, ho]
      rw [if_pos hbpos, if_pos hgate]
    refine ⟨heq, ?_⟩
    rw [heq]
    calc o.bonus_value_usd.getD 0 *
          min (total * ((resolveOfferWindow o w : ℚ) / 30) / o.min_spend.getD 0) 1
        ≤ o.bonus_value_usd.getD 0 * 1 :=
          mul_le_mul_of_nonneg_left (min_le_right _ _) hb
      _ = o.bonus_value_usd.getD 0 := mul_one _
  · intro hng
    simp only [welcomeValue, ho]
    by_cases hbp : 0 < o.bonus_value_usd.getD 0
    · rw [if_pos hbp, if_neg hng]
    · rw [if_neg hbp]
      exact (le_antisymm (not_lt.mp hbp) hb).symm
  · norm_num [welcomeValue, welcomeCard, resolveOfferWindow]

/-- Witness for C8 at the concrete offer of the claim. -/
theorem welcome_offer_valuation_witness :
    ((0 < (Option.getD (some (200:ℚ)) 0) ∧ 0 < (Option.getD (some (3000:ℚ)) 0) ∧
        (0:ℚ) < 2000 ∧
        0 < resolveOfferWindow
          { bonus_value_usd := some 200, min_spend := some 3000, window_days := some 90 } 30) →
      welcomeValue welcomeCard 2000 30 =
        (Option.getD (some (200:ℚ)) 0) *
          min (2000 * ((resolveOfferWindow
              { bonus_value_usd := some 200, min_spend := some 3000, window_days := some 90 } 30 : ℚ) / 30) /
            (Option.getD (some (3000:ℚ)) 0)) 1 ∧
      welcomeValue welcomeCard 2000 30 ≤ (Option.getD (some (200:ℚ)) 0)) ∧
    (¬(0 < (Option.getD (some (3000:ℚ)) 0) ∧ (0:ℚ) < 2000 ∧
        0 < resolveOfferWindow
          { bonus_value_usd := some 200, min_spend := some 3000, window_days := some 90 } 30) →
      welcomeValue welcomeCard 2000 30 = (Option.getD (some (200:ℚ)) 0)) ∧
    annualRewardRaw welcomeCard [] 2000 30 =
      monthlyRewardRaw welcomeCard [] 2000 * 12 + welcomeValue welcomeCard 2000 30 ∧
    welcomeValue welcomeCard 2000 30 = 200 :=
  welcome_offer_valuation welcomeCard [] 2000 30
    { bonus_value_usd := some 200, min_spend := some 3000, window_days := some 90 }
    rfl (by norm_num)

/-- C10: with nonnegative caps, a nonnegative mix and nonnegative monthly
total, every reward rule contributes a nonnegative bonus (the bonus rate is
clamped at `max(rate - base_rate, 0)`), so the unrounded monthly reward is at
least `base_cashback_rate * monthly_total`: a rule whose rate is at or below
the base rate never reduces the score. -/
theorem reward_scorer_lower_bound (card : Card) (mix : List (String × ℚ))
    (total : ℚ)
    (hcap : ∀ r ∈ card.rewards, 0 ≤ r.cap_monthly.getD 0)
    (hmix : ∀ kv ∈ mix, 0 ≤ kv.2) (ht : 0 ≤ total) :
    (∀ r ∈ card.rewards, 0 ≤ ruleBonusAmount card.base_cashback mix total r) ∧
    card.base_cashback * total ≤ monthlyRewardRaw card mix total := by
  have helig : ∀ r ∈ card.rewards, 0 ≤ ruleEligibleSpend mix total r := by
    intro r hr
    have hspend : 0 ≤ total * mixGet mix r.category :=
      mul_nonneg ht (mixGet_nonneg hmix _)
    cases hcm : r.cap_monthly with
    | none => simpa [ruleEligibleSpend, hcm] using hspend
    | some c =>
      have hc : 0 ≤ c := by simpa [hcm] using hcap r hr
      simpa [ruleEligibleSpend, hcm] using le_min hspend hc
  have hb : ∀ r ∈ card.rewards, 0 ≤ ruleBonusAmount card.base_cashback mix total r :=
    fun r hr => mul_nonneg (le_max_right _ _) (helig r hr)
  refine ⟨hb, ?_⟩
  rw [monthlyRewardRaw]
  have hsum : 0 ≤ bonusTotalMonthly card mix total := by
    rw [bonusTotalMonthly]
    apply List.sum_nonneg
    intro x hx
    obtain ⟨r, hr, rfl⟩ := List.mem_map.mp hx
    exact hb r hr
  linarith

/-- Witness for C10 at the capped card and a one-category mix. -/
theorem reward_scorer_lower_bound_witness :
    (∀ r ∈ capCard.rewards, 0 ≤ ruleBonusAmount capCard.base_cashback [("X", 1)] 150 r) ∧
    capCard.base_cashback * 150 ≤ monthlyRewardRaw capCard [("X", 1)] 150 :=
  reward_scorer_lower_bound capCard [("X", 1)] 150
    (by norm_num [capCard]) (by norm_num) (by norm_num)

theorem sanitizeMix_pos (raw : List (String × Option ℚ)) :
    ∀ kv ∈ sanitizeMix raw, 0 < kv.2 := by
  intro kv hkv
  simp only [sanitizeMix, List.mem_filterMap] at hkv
  obtain ⟨a, _, hfa⟩ := hkv
  cases ha2 : a.2 with
  | none => rw [ha2] at hfa; exact absurd hfa (by simp)
  | some v =>
    rw [ha2] at hfa
    have hfa2 : (if 0 < v then some (a.1, v) else none) = some kv := hfa
    by_cases hv : 0 < v
    · rw [if_pos hv] at hfa2
      have : (a.1, v) = kv := by simpa using hfa2
      rw [← this]
      exact hv
    · rw [if_neg hv] at hfa2
      exact absurd hfa2 (by simp)

/-- C6: normalization invariant of the Mix Normalizer.  Whenever at least one
entry survives `normalize_mix`'s filtering, the resulting fractions sum to
exactly 1 (hence within the 1e-9 tolerance), the returned total is the
filtered sum, and every fraction lies in `(0, 1]`; when nothing survives the
result is `({}, 0.0)`.  The non-empty mixes produced by `compute_user_mix`
satisfy the same sum-to-1 and `(0, 1]` invariants. -/
theorem mix_normalizer_invariant (raw : List (String × Option ℚ))
    (txns : List Txn) :
    (sanitizeMix raw ≠ [] →
      ((normalize_mix raw).1.map (fun kv => kv.2)).sum = 1 ∧
      (normalize_mix raw).2 = ((sanitizeMix raw).map (fun kv => kv.2)).sum ∧
      ∀ kv ∈ (normalize_mix raw).1, 0 < kv.2 ∧ kv.2 ≤ 1) ∧
    (sanitizeMix raw = [] → normalize_mix raw = ([], 0)) ∧
    ((compute_user_mix txns).1 ≠ [] →
      ((compute_user_mix txns).1.map (fun kv => kv.2)).sum = 1 ∧
      ∀ kv ∈ (compute_user_mix txns).1, 0 < kv.2 ∧ kv.2 ≤ 1) := by
  refine ⟨?_, ?_, ?_⟩
  · intro hne
    have hpos := sanitizeMix_pos raw
    have hmapne : (sanitizeMix raw).map (fun kv : String × ℚ => kv.2) ≠ [] := by
      simpa using hne
    have htot : 0 < sndSum (sanitizeMix raw) := by
      apply List.sum_pos
      · intro x hx
        obtain ⟨kv, hkv, rfl⟩ := List.mem_map.mp hx
        exact hpos kv hkv
      · exact hmapne
    have hnm : normalize_mix raw =
        ((sanitizeMix raw).map (fun kv => (kv.1, kv.2 / sndSum (sanitizeMix raw))),
          sndSum (sanitizeMix raw)) := by
      show (if sndSum (sanitizeMix raw) ≤ 0 then (([] : List (String × ℚ)), (0 : ℚ))
          else ((sanitizeMix raw).map (fun kv => (kv.1, kv.2 / sndSum (sanitizeMix raw))),
            sndSum (sanitizeMix raw))) = _
      rw [if_neg (not_le.mpr htot)]
    refine ⟨?_, ?_, ?_⟩
    · rw [hnm]
      show sndSum ((sanitizeMix raw).map
        (fun kv => (kv.1, kv.2 / sndSum (sanitizeMix raw)))) = 1
      rw [sndSum_map_div]
      exact div_self (ne_of_gt htot)
    · rw [hnm]
      rfl
    · intro kv hkv
      rw [hnm] at hkv
      obtain ⟨a, ha, rfl⟩ := List.mem_map.mp hkv
      refine ⟨div_pos (hpos a ha) htot, ?_⟩
      rw [div_le_one htot]
      exact List.single_le_sum
        (fun x hx => by
          obtain ⟨b, hb, rfl⟩ := List.mem_map.mp hx
          exact le_of_lt (hpos b hb))
        a.2 (List.mem_map.mpr ⟨a, ha, rfl⟩)
  · intro h0
    simp [normalize_mix, h0]
  · intro hne
    by_cases hts : (summarizeCategories txns).1 ≤ 0
    · exfalso
      apply hne
      show (if (summarizeCategories txns).1 ≤ 0 then (([] : List (String × ℚ)), (0 : ℚ))
          else _).1 = []
      rw [if_pos hts]
    · have htot : 0 < (summarizeCategories txns).1 := not_le.mp hts
      obtain ⟨hsum_eq, hnn⟩ := summarize_byCategory txns
      have hcm : compute_user_mix txns =
          (((summarizeCategories txns).2.1.filter (fun kv => decide (0 < kv.2))).map
            (fun kv => (kv.1, kv.2 / (summarizeCategories txns).1)),
            (summarizeCategories txns).1) := by
        show (if (summarizeCategories txns).1 ≤ 0 then (([] : List (String × ℚ)), (0 : ℚ))
            else _) = _
        rw [if_neg hts]
      refine ⟨?_, ?_⟩
      · rw [hcm]
        show sndSum (((summarizeCategories txns).2.1.filter
            (fun kv => decide (0 < kv.2))).map
            (fun kv => (kv.1, kv.2 / (summarizeCategories txns).1))) = 1
        rw [sndSum_map_div, sndSum_filter_pos _ hnn, ← hsum_eq]
        exact div_self (ne_of_gt htot)
      · intro kv hkv
        rw [hcm] at hkv
        obtain ⟨a, ha, rfl⟩ := List.mem_map.mp hkv
        have hmem := List.mem_filter.mp ha
        have hapos : 0 < a.2 := by simpa using hmem.2
        refine ⟨div_pos hapos htot, ?_⟩
        rw [div_le_one htot, hsum_eq]
        exact List.single_le_sum
          (fun x hx => by
            obtain ⟨b, hb, rfl⟩ := List.mem_map.mp hx
            exact hnn b hb)
          a.2 (List.mem_map.mpr ⟨a, hmem.1, rfl⟩)

/-- A raw mix with one positive, one non-numeric and one negative entry. -/
def rawMixExample : List (String × Option ℚ) :=
  [("Dining", some 30), ("Gas", none), ("Fees", some (-5))]

/-- A one-transaction window: $100 of Dining spend. -/
def txnsExample : List Txn :=
  [{ amount := some 100, category := some "Dining", merchant_id := none,
     description_clean := none, description := none, logoUrl := none }]

/-- Witness for C6 at a concrete raw mix and transaction list. -/
theorem mix_normalizer_invariant_witness :
    (((normalize_mix rawMixExample).1.map (fun kv => kv.2)).sum = 1 ∧
      (normalize_mix rawMixExample).2 =
        ((sanitizeMix rawMixExample).map (fun kv => kv.2)).sum ∧
      ∀ kv ∈ (normalize_mix rawMixExample).1, 0 < kv.2 ∧ kv.2 ≤ 1) ∧
    (((compute_user_mix txnsExample).1.map (fun kv => kv.2)).sum = 1 ∧
      ∀ kv ∈ (compute_user_mix txnsExample).1, 0 < kv.2 ∧ kv.2 ≤ 1) :=
  ⟨(mix_normalizer_invariant rawMixExample txnsExample).1
      (by simp [sanitizeMix, rawMixExample]),
    (mix_normalizer_invariant rawMixExample txnsExample).2.2
      (by
        simp [compute_user_mix, summarizeCategories, summarizeStep, addAmount,
          addCount, txnAmount, strOr, txnsExample, List.filter]
        norm_num)⟩

theorem txnAmount_cents {t : Txn}
    (h : ∃ n : ℤ, t.amount.getD 0 * 100 = (n : ℚ)) :
    ∃ n : ℤ, txnAmount t * 100 = (n : ℚ) := by
  obtain ⟨n, hn⟩ := h
  refine ⟨max n 0, ?_⟩
  rw [txnAmount, max_mul_of_nonneg _ _ (by norm_num : (0:ℚ) ≤ 100), hn]
  push_cast
  norm_num

theorem sum_txnAmount_cents (txns : List Txn)
    (h : ∀ t ∈ txns, ∃ n : ℤ, t.amount.getD 0 * 100 = (n : ℚ)) :
    ∃ n : ℤ, (txns.map txnAmount).sum * 100 = (n : ℚ) := by
  induction txns with
  | nil => exact ⟨0, by simp⟩
  | cons t ts ih =>
    obtain ⟨m, hm⟩ := txnAmount_cents (h t (List.mem_cons_self _ _))
    obtain ⟨n, hn⟩ := ih (fun x hx => h x (List.mem_cons_of_mem _ hx))
    refine ⟨m + n, ?_⟩
    rw [List.map_cons, List.sum_cons, add_mul, hm, hn]
    push_cast
    ring

/-- A transaction of a tenth of a cent. -/
def subCentTxn : Txn :=
  { amount := some (1/1000), category := none, merchant_id := none,
    description_clean := none, description := none, logoUrl := none }

/-- Counterexample to C7 as stated: `aggregate_spend_details` returns
`round(total, 2)`, so for a sub-cent amount the reported total (0.0) is NOT
the sum of the clamped amounts (0.001). -/
theorem aggregate_total_lost_subcent :
    (aggregate_spend_details [subCentTxn] none).total = 0 ∧
    ([subCentTxn].map txnAmount).sum = 1/1000 ∧
    (aggregate_spend_details [subCentTxn] none).total ≠
      ([subCentTxn].map txnAmount).sum := by
  have h1 : (aggregate_spend_details [subCentTxn] none).total = 0 := by
    show round2 (summarizeCategories [subCentTxn]).1 = 0
    rw [summarize_total]
    norm_num [subCentTxn, txnAmount, round2, roundHalfEven]
  have h2 : ([subCentTxn].map txnAmount).sum = 1/1000 := by
    norm_num [subCentTxn, txnAmount]
  refine ⟨h1, h2, ?_⟩
  rw [h1, h2]
  norm_num

/-- C7 (amended): the aggregator's reported total is `round(Σ max(amount,0), 2)`;
whenever every transaction amount is a whole number of cents — the shape the
system's own loaders produce (`normalize_txn` rounds to 2 decimals) — the
rounding is the identity and the total equals the claimed sum exactly.
`transaction_count` counts every transaction, refunds included, and the empty
input yields the all-zero aggregate (the embedding is total, so nothing is
raised). -/
theorem aggregate_totals_invariant (txns : List Txn)
    (category_rules : Option (List CatRule))
    (hc : ∀ t ∈ txns, ∃ n : ℤ, t.amount.getD 0 * 100 = (n : ℚ)) :
    (aggregate_spend_details txns category_rules).total =
      (txns.map txnAmount).sum ∧
    (aggregate_spend_details txns category_rules).transaction_count =
      txns.length ∧
    aggregate_spend_details [] category_rules =
      { total := 0, transaction_count := 0, categories := [], merchants := [] } := by
  refine ⟨?_, rfl, ?_⟩
  · have h1 : (aggregate_spend_details txns category_rules).total =
        round2 ((txns.map txnAmount).sum) := by
      show round2 (summarizeCategories txns).1 = _
      rw [summarize_total]
    obtain ⟨n, hn⟩ := sum_txnAmount_cents txns hc
    rw [h1, round2_of_mul_cast _ n hn]
  · show SpendDetails.mk (round2 (summarizeCategories []).1) _ _ _ = _
    simp [summarizeCategories, aggregate_spend_details, merchantFold, round2_zero]

/-- A whole-cent transaction: $12.34 of Dining spend. -/
def centTxn : Txn :=
  { amount := some (1234/100), category := some "Dining", merchant_id := none,
    description_clean := none, description := none, logoUrl := none }

/-- Witness for C7's amended theorem at a whole-cent transaction list. -/
theorem aggregate_totals_invariant_witness :
    (aggregate_spend_details [centTxn] none).total = ([centTxn].map txnAmount).sum ∧
    (aggregate_spend_details [centTxn] none).transaction_count = [centTxn].length ∧
    aggregate_spend_details [] none =
      { total := 0, transaction_count := 0, categories := [], merchants := [] } :=
  aggregate_totals_invariant [centTxn] none
    (by
      intro t ht
      rw [List.mem_singleton] at ht
      subst ht
      exact ⟨1234, by norm_num [centTxn]⟩)

theorem netDescLe_trans (a b c : ScoredCard)
    (h1 : netDescLe a b = true) (h2 : netDescLe b c = true) :
    netDescLe a c = true := by
  simp only [netDescLe, decide_eq_true_eq] at *
  exact le_trans h2 h1

theorem netDescLe_total (a b : ScoredCard) :
    (netDescLe a b || netDescLe b a) = true := by
  simp only [netDescLe, Bool.or_eq_true, decide_eq_true_eq]
  exact le_total b.net a.net

/-- The list of scored cards in catalog iteration order, before sorting. -/
def scoredCards (cards : List Card) (mix : List (String × ℚ))
    (monthly_total : ℚ) (window_days : ℤ) : List ScoredCard :=
  cards.map (fun card => score_card card mix monthly_total window_days)

/-- The stable descending-by-`net` ordering `score_catalog` produces before
truncation. -/
def rankedCards (cards : List Card) (mix : List (String × ℚ))
    (monthly_total : ℚ) (window_days : ℤ) : List ScoredCard :=
  (scoredCards cards mix monthly_total window_days).mergeSort netDescLe

/-- C9: ranking order of `score_catalog`.  With a positive total and
non-empty mix the result is the scored cards sorted in non-increasing order
of `net`; the sort is stable (for every net value, the cards at that value
appear exactly in catalog iteration order); a positive `limit` truncates to
the first `limit` entries and `limit ≤ 0` does not truncate; and ranking
twice yields identical output. -/
theorem catalog_ranking_order (cards : List Card) (mix : List (String × ℚ))
    (monthly_total : ℚ) (window_days limit : ℤ)
    (hm : 0 < monthly_total) (hmix : mix ≠ []) :
    (rankedCards cards mix monthly_total window_days).Perm
      (scoredCards cards mix monthly_total window_days) ∧
    (rankedCards cards mix monthly_total window_days).Pairwise
      (fun a b => b.net ≤ a.net) ∧
    (∀ q : ℚ,
      (rankedCards cards mix monthly_total window_days).filter
          (fun c => decide (c.net = q)) =
        (scoredCards cards mix monthly_total window_days).filter
          (fun c => decide (c.net = q))) ∧
    (0 < limit →
      score_catalog cards mix monthly_total window_days limit =
        (rankedCards cards mix monthly_total window_days).take limit.toNat) ∧
    (limit ≤ 0 →
      score_catalog cards mix monthly_total window_days limit =
        rankedCards cards mix monthly_total window_days) ∧
    score_catalog cards mix monthly_total window_days limit =
      score_catalog cards mix monthly_total window_days limit := by
  have hguard : ¬(monthly_total ≤ 0 ∨ mix = []) :=
    not_or.mpr ⟨not_le.mpr hm, hmix⟩
  have hsc : score_catalog cards mix monthly_total window_days limit =
      if 0 < limit then
        (rankedCards cards mix monthly_total window_days).take limit.toNat
      else rankedCards cards mix monthly_total window_days := by
    show (if monthly_total ≤ 0 ∨ mix = [] then [] else _) = _
    rw [if_neg hguard]
    rfl
  refine ⟨List.mergeSort_perm _ _, ?_, ?_, ?_, ?_, rfl⟩
  · exact (List.sorted_mergeSort netDescLe_trans netDescLe_total
      (scoredCards cards mix monthly_total window_days)).imp
      (fun h => of_decide_eq_true h)
  · intro q
    have hpair : ((scoredCards cards mix monthly_total window_days).filter
        (fun c => decide (c.net = q))).Pairwise (fun a b => netDescLe a b = true) := by
      apply List.pairwise_of_forall_mem_list
      intro x hx y hy
      have hxq : x.net = q := by simpa using (List.mem_filter.mp hx).2
      have hyq : y.net = q := by simpa using (List.mem_filter.mp hy).2
      simp [netDescLe, hxq, hyq]
    have hsub : ((scoredCards cards mix monthly_total window_days).filter
        (fun c => decide (c.net = q))).Sublist
          (rankedCards cards mix monthly_total window_days) :=
      List.sublist_mergeSort netDescLe_trans netDescLe_total hpair
        (List.filter_sublist _)
    have heq : ((scoredCards cards mix monthly_total window_days).filter
        (fun c => decide (c.net = q))).filter (fun c => decide (c.net = q)) =
        (scoredCards cards mix monthly_total window_days).filter
          (fun c => decide (c.net = q)) := by
      rw [List.filter_eq_self]
      intro a ha
      exact (List.mem_filter.mp ha).2
    have hsub2 : ((scoredCards cards mix monthly_total window_days).filter
        (fun c => decide (c.net = q))).Sublist
          ((rankedCards cards mix monthly_total window_days).filter
            (fun c => decide (c.net = q))) := by
      rw [← heq]
      exact List.Sublist.filter _ hsub
    have hperm2 : ((rankedCards cards mix monthly_total window_days).filter
        (fun c => decide (c.net = q))).Perm
          ((scoredCards cards mix monthly_total window_days).filter
            (fun c => decide (c.net = q))) :=
      List.Perm.filter _ (List.mergeSort_perm _ _)
    exact (hsub2.eq_of_length hperm2.length_eq.symm).symm
  · intro hl
    rw [hsc, if_pos hl]
  · intro hl
    rw [hsc, if_neg (not_lt.mpr hl)]

/-- A flat-rate card with no rules, fee or offer, used to exercise ties. -/
def flatCard (s : String) (r : ℚ) : Card :=
  { slug := some s, base_cashback := r, rewards := [], annual_fee := 0,
    welcome_offer := none }

/-- Witness for C9 on a catalog with a tie (two identical 2% cards) and a
truncating limit. -/
theorem catalog_ranking_order_witness :
    (rankedCards [flatCard "a" (1/100), flatCard "b" (2/100), flatCard "c" (2/100)]
      [("Dining", 1)] 100 30).Perm
      (scoredCards [flatCard "a" (1/100), flatCard "b" (2/100), flatCard "c" (2/100)]
        [("Dining", 1)] 100 30) ∧
    (rankedCards [flatCard "a" (1/100), flatCard "b" (2/100), flatCard "c" (2/100)]
      [("Dining", 1)] 100 30).Pairwise (fun a b => b.net ≤ a.net) ∧
    (∀ q : ℚ,
      (rankedCards [flatCard "a" (1/100), flatCard "b" (2/100), flatCard "c" (2/100)]
          [("Dining", 1)] 100 30).filter (fun c => decide (c.net = q)) =
        (scoredCards [flatCard "a" (1/100), flatCard "b" (2/100), flatCard "c" (2/100)]
          [("Dining", 1)] 100 30).filter (fun c => decide (c.net = q))) ∧
    ((0:ℤ) < 2 →
      score_catalog [flatCard "a" (1/100), flatCard "b" (2/100), flatCard "c" (2/100)]
          [("Dining", 1)] 100 30 2 =
        (rankedCards [flatCard "a" (1/100), flatCard "b" (2/100), flatCard "c" (2/100)]
          [("Dining", 1)] 100 30).take (2:ℤ).toNat) ∧
    ((2:ℤ) ≤ 0 →
      score_catalog [flatCard "a" (1/100), flatCard "b" (2/100), flatCard "c" (2/100)]
          [("Dining", 1)] 100 30 2 =
        rankedCards [flatCard "a" (1/100), flatCard "b" (2/100), flatCard "c" (2/100)]
          [("Dining", 1)] 100 30) ∧
    score_catalog [flatCard "a" (1/100), flatCard "b" (2/100), flatCard "c" (2/100)]
        [("Dining", 1)] 100 30 2 =
      score_catalog [flatCard "a" (1/100), flatCard "b" (2/100), flatCard "c" (2/100)]
        [("Dining", 1)] 100 30 2 :=
  catalog_ranking_order
    [flatCard "a" (1/100), flatCard "b" (2/100), flatCard "c" (2/100)]
    [("Dining", 1)] 100 30 2 (by norm_num) (by simp)
